import Mathlib

/-!
Verification development for the clerk incremental synchronization and ledger
persistence engine.  The Rust source is shallowly embedded: the SQLite database
becomes an explicit record of row lists, every store operation becomes a pure
state-passing function, and the sqlx transaction wrapper (which rolls the whole
write back when the closure returns an error) is modelled by returning the
original state alongside the error.  ULIDs are modelled as naturals threaded
explicitly through the functions that call the generator; the injective
decimal/ULID-to-string formatting performed at the SQL boundary is dropped.
-/

set_option autoImplicit false

namespace Clerk

/-- Transaction status, from src/core/txn.rs. -/
inductive Status
  | Resolved
  | Pending
deriving DecidableEq

/-- Status rendering used when binding the status column, from src/core/txn.rs. -/
def Status.toString : Status → String
  | Status.Resolved => "RESOLVED"
  | Status.Pending => "PENDING"

/-- Calendar date; chrono NaiveDate restricted to the proleptic Gregorian dates
the program manipulates. -/
structure Date where
  year : Nat
  month : Nat
  day : Nat
deriving DecidableEq

def isLeap (y : Nat) : Bool :=
  (y % 4 == 0 && y % 100 != 0) || y % 400 == 0

def daysInMonth (y m : Nat) : Nat :=
  if m == 2 then (if isLeap y then 29 else 28)
  else if m == 4 || m == 6 || m == 9 || m == 11 then 30
  else 31

def splitDash : List Char → List (List Char)
  | [] => [[]]
  | c :: cs =>
    if c == Char.ofNat 45 then [] :: splitDash cs
    else match splitDash cs with
      | [] => [[c]]
      | p :: ps => (c :: p) :: ps

def digitsVal (cs : List Char) : Nat :=
  cs.foldl (fun n c => n * 10 + (c.toNat - 48)) 0

def allDigits (cs : List Char) : Bool :=
  cs.all fun c => 48 ≤ c.toNat && c.toNat ≤ 57

/-- Parse of a %Y-%m-%d date string, embedding the NaiveDate parse used by
to_canonical_txn in src/upstream/plaid.rs: split on the dash, require decimal
digit groups, and validate the calendar ranges. -/
def parseDate (s : String) : Option Date :=
  match splitDash s.toList with
  | [y, m, d] =>
    if y.length > 0 && allDigits y &&
       m.length > 0 && allDigits m &&
       d.length > 0 && allDigits d then
      let ym := digitsVal y
      let mm := digitsVal m
      let dm := digitsVal d
      if 1 ≤ mm && mm ≤ 12 && 1 ≤ dm && dm ≤ daysInMonth ym mm then
        some ⟨ym, mm, dm⟩
      else none
    else none
  | _ => none

def pad2 (n : Nat) : String :=
  if n < 10 then "0" ++ toString n else toString n

/-- Formatting %Y-%m-%d used when binding the date column in insert_transaction. -/
def formatDate (d : Date) : String :=
  toString d.year ++ "-" ++ pad2 d.month ++ "-" ++ pad2 d.day

/-- Fixed-point money value (rusty_money), amount in minor units. -/
structure Money where
  amount : Int
  currency : String
deriving DecidableEq

/-- Posting, from src/core/txn.rs. -/
structure Posting where
  account : String
  units : Money
  status : Status
  meta : List (String × List Nat)
deriving DecidableEq

/-- Canonical ledger transaction, from src/core/txn.rs.  The ULID id is a
natural. -/
structure Transaction where
  id : Nat
  status : Status
  date : Date
  payee : Option String
  postings : List Posting
  narration : String
  tags : List String
  links : List String
  meta : List (String × List Nat)
deriving DecidableEq

/-- Raw upstream transaction (rplaid::model::Transaction); record fields the
embedded code never reads are elided. -/
structure PlaidTransaction where
  account_id : String
  amount : Int
  iso_currency_code : Option String
  date : String
  pending : Bool
  transaction_id : String
  pending_transaction_id : Option String
  name : String
  merchant_name : Option String
deriving DecidableEq

/-- Pair of canonical transaction and raw upstream payload, from
src/upstream/mod.rs.  The serde_json serialization of the source payload at
the SQL boundary is injective, so the payload itself stands for its serialized
form. -/
structure TransactionEntry where
  canonical : Transaction
  source : PlaidTransaction
deriving DecidableEq

/-- Store error taxonomy from src/store/mod.rs; constructors the claims do not
distinguish are collapsed into Database/Unknown. -/
inductive StoreError
  | AlreadyExists
  | Parse
  | Database
  | Unknown
deriving DecidableEq

/-- Row of the transactions table (id, date, payee, narration, status, source). -/
structure TxRow where
  id : Nat
  date : String
  payee : Option String
  narration : String
  status : String
  source : PlaidTransaction
deriving DecidableEq

/-- Row of the postings table; the id is the freshly generated ULID. -/
structure PostRow where
  id : Nat
  txnId : Nat
  account : String
  amount : Int
  currency : String
  status : String
deriving DecidableEq

/-- Row of the int_transactions_links upstream mapping table, with a schema
uniqueness constraint on (item_id, plaid_txn_id). -/
structure MapRow where
  itemId : String
  txnId : Nat
  plaidTxnId : String
deriving DecidableEq

/-- Row of the plaid_links table.  The alias column is named aliasName because
alias is a reserved word here. -/
structure LinkRow where
  id : String
  aliasName : String
  accessToken : String
  linkState : String
  syncCursor : Option String
  institution : Option String
deriving DecidableEq

/-- The SQLite database state: one list per table, plus the ULID generator
counter used for fresh posting row ids. -/
structure DB where
  transactions : List TxRow
  postings : List PostRow
  mapping : List MapRow
  links : List LinkRow
  ulidCounter : Nat
deriving DecidableEq

/-- Mapping lookup run inside the save_tx transaction scope, from
select_transaction_connection in src/store/mod.rs. -/
def select_transaction_connection (db : DB) (link_id plaid_txn_id : String) :
    Option Nat :=
  (db.mapping.find? fun r => r.itemId == link_id && r.plaidTxnId == plaid_txn_id).map
    (fun r => r.txnId)

/-- Mapping lookup on a pool connection, canonical_txn_id in src/store/mod.rs
(the same query text as select_transaction_connection). -/
def canonical_txn_id (db : DB) (link_id plaid_txn_id : String) : Option Nat :=
  (db.mapping.find? fun r => r.itemId == link_id && r.plaidTxnId == plaid_txn_id).map
    (fun r => r.txnId)

/-- SqliteStore::tx_by_plaid_id from src/store/mod.rs. -/
def tx_by_plaid_id (db : DB) (item_id plaid_id : String) : Option Nat :=
  canonical_txn_id db item_id plaid_id

/-- Transactions row produced by the binds of insert_transaction. -/
def txRowOf (entry : Transaction) (source : PlaidTransaction) : TxRow :=
  ⟨entry.id, formatDate entry.date, entry.payee, entry.narration,
    entry.status.toString, source⟩

/-- insert_transaction from src/store/mod.rs: the INSERT fails with sqlite
error code 1555 (primary-key uniqueness) when a row with the same id exists,
which the code maps to AlreadyExists. -/
def insert_transaction (db : DB) (entry : Transaction) (source : PlaidTransaction) :
    Except StoreError DB :=
  if db.transactions.any (fun r => r.id == entry.id) then
    Except.error StoreError.AlreadyExists
  else
    Except.ok { db with transactions := db.transactions ++ [txRowOf entry source] }

/-- Postings row produced by the binds of insert_posting; the row id is the
fresh ULID drawn from the generator counter. -/
def postingRow (fresh : Nat) (txn_id : Nat) (post : Posting) : PostRow :=
  ⟨fresh, txn_id, post.account, post.units.amount, post.units.currency, "RESOLVED"⟩

/-- insert_posting from src/store/mod.rs; the freshly generated ULID key never
collides, so the INSERT cannot hit a uniqueness failure. -/
def insert_posting (db : DB) (txn_id : Nat) (post : Posting) : DB :=
  { db with
    postings := db.postings ++ [postingRow db.ulidCounter txn_id post]
    ulidCounter := db.ulidCounter + 1 }

/-- The posting insertion loop of save_tx. -/
def insert_postings (db : DB) (txn_id : Nat) : List Posting → DB
  | [] => db
  | p :: ps => insert_postings (insert_posting db txn_id p) txn_id ps

/-- transaction_plaid_connection from src/store/mod.rs: inserting the mapping
row; a violation of the (item_id, plaid_txn_id) uniqueness constraint
propagates as a generic database error here. -/
def transaction_plaid_connection (db : DB) (item_id : String) (txn_id : Nat)
    (plaid_txn_id : String) : Except StoreError DB :=
  if db.mapping.any (fun r => r.itemId == item_id && r.plaidTxnId == plaid_txn_id) then
    Except.error StoreError.Database
  else
    Except.ok { db with mapping := db.mapping ++ [⟨item_id, txn_id, plaid_txn_id⟩] }

/-- Closure passed by SqliteStore::save_tx to the sqlx transaction scope, from
src/store/mod.rs: pre-check the upstream mapping (AlreadyExists on a hit),
insert the transaction row, insert every posting row, insert the mapping row. -/
def save_tx_body (db : DB) (item_id upstream_id : String) (tx : TransactionEntry) :
    Except StoreError DB :=
  if (select_transaction_connection db item_id upstream_id).isSome then
    Except.error StoreError.AlreadyExists
  else
    match insert_transaction db tx.canonical tx.source with
    | Except.error e => Except.error e
    | Except.ok db1 =>
      transaction_plaid_connection
        (insert_postings db1 tx.canonical.id tx.canonical.postings)
        item_id tx.canonical.id upstream_id

/-- SqliteStore::save_tx from src/store/mod.rs.  The body runs inside one
sqlx transaction: an error from the closure rolls every write back, which the
embedding renders by returning the original state with the error. -/
def save_tx (db : DB) (item_id upstream_id : String) (tx : TransactionEntry) :
    Except StoreError Unit × DB :=
  match save_tx_body db item_id upstream_id tx with
  | Except.ok dbFinal => (Except.ok (), dbFinal)
  | Except.error e => (Except.error e, db)

/-- Store::update_source from src/store/txn.rs: UPDATE transactions SET
source = serialized payload WHERE id = id. -/
def update_source (db : DB) (id : Nat) (source : PlaidTransaction) : DB :=
  { db with
    transactions := db.transactions.map fun r =>
      if r.id == id then { r with source := source } else r }

/-- Panic conditions of the upstream adapter in src/upstream/plaid.rs: the
assert on the terminal sentinel, the expect inside next_cursor, and the
unwrap on the canonical date parse. -/
inductive PanicKind
  | assertSentinel
  | expectCursor
  | dateParse
deriving DecidableEq

/-- Items of the upstream change feed (rplaid::model::TransactionStream). -/
inductive TransactionStream
  | Added (txn : PlaidTransaction)
  | Modified (txn : PlaidTransaction)
  | Removed (id : String)
  | Done (cursor : String)
deriving DecidableEq

def isDone : TransactionStream → Bool
  | TransactionStream.Done _ => true
  | _ => false

/-- Upstream adapter state, Source in src/upstream/plaid.rs; the HashSets are
lists without duplicates. -/
structure Source where
  token : String
  cursor : Option String
  removed : List String
  modified : List String
deriving DecidableEq

def insertSet (l : List String) (x : String) : List String :=
  if l.contains x then l else l ++ [x]

def Source.remove (s : Source) (id : String) : Source :=
  { s with removed := insertSet s.removed id }

def Source.modify (s : Source) (id : String) : Source :=
  { s with modified := insertSet s.modified id }

/-- Source::next_cursor from src/upstream/plaid.rs: an expect that panics when
no cursor was ever stored. -/
def Source.next_cursor (s : Source) : Except PanicKind String :=
  match s.cursor with
  | none => Except.error PanicKind.expectCursor
  | some c => Except.ok c

/-- to_canonical_txn from src/upstream/plaid.rs.  Ulid::new() draws a fresh
identifier on every invocation, made explicit as the newId argument; the
unwrap on the date parse surfaces as the none case; this source revision
constructs no postings, so the canonical transaction carries the empty
default. -/
def to_canonical_txn (newId : Nat) (tx : PlaidTransaction) : Option Transaction :=
  (parseDate tx.date).map fun d =>
    { id := newId
      status := if tx.pending then Status.Pending else Status.Resolved
      date := d
      payee := tx.merchant_name
      postings := []
      narration := tx.name
      tags := []
      links := []
      meta := [] }

/-- Filter-map pass of Source::transactions over the folded page items,
threading the adapter state and the ULID generator. -/
def process_stream (s : Source) (fresh : Nat) :
    List TransactionStream → Except PanicKind (Source × Nat × List TransactionEntry)
  | [] => Except.ok (s, fresh, [])
  | TransactionStream.Added txn :: rest =>
    match to_canonical_txn fresh txn with
    | none => Except.error PanicKind.dateParse
    | some c =>
      match process_stream s (fresh + 1) rest with
      | Except.error e => Except.error e
      | Except.ok (s2, f2, es) => Except.ok (s2, f2, ⟨c, txn⟩ :: es)
  | TransactionStream.Modified txn :: rest =>
    match to_canonical_txn fresh txn with
    | none => Except.error PanicKind.dateParse
    | some c =>
      match process_stream (s.modify txn.transaction_id) (fresh + 1) rest with
      | Except.error e => Except.error e
      | Except.ok (s2, f2, es) => Except.ok (s2, f2, ⟨c, txn⟩ :: es)
  | TransactionStream.Removed id :: rest => process_stream (s.remove id) fresh rest
  | TransactionStream.Done c :: rest => process_stream { s with cursor := some c } fresh rest

/-- Source::transactions from src/upstream/plaid.rs.  The pages returned by
transactions_sync_iter are folded into one item list; when the list is
nonempty its last element must be the Done sentinel (assert, a panic on
violation); when the list is empty the check is skipped entirely.  The cursor
is stored when a Done element is folded. -/
def Source.transactions (s : Source) (fresh : Nat) (items : List TransactionStream) :
    Except PanicKind (Source × Nat × List TransactionEntry) :=
  match items.getLast? with
  | none => process_stream s fresh items
  | some last =>
    if isDone last then process_stream s fresh items
    else Except.error PanicKind.assertSentinel

/-- Rule interpreter from src/rules.rs: an ordered list of compiled transforms,
one per parsed rule record, each rewriting the transaction in place. -/
structure Interpreter where
  transforms : List (PlaidTransaction → PlaidTransaction)

/-- Interpreter::apply from src/rules.rs: run every transform in order. -/
def Interpreter.apply (int : Interpreter) (txn : PlaidTransaction) : PlaidTransaction :=
  int.transforms.foldl (fun t f => f t) txn

/-- Link status, from src/plaid/mod.rs. -/
inductive LinkStatus
  | Active
  | Degraded (reason : String)
deriving DecidableEq

/-- Link record, from src/plaid/mod.rs. -/
structure Link where
  aliasName : String
  access_token : String
  item_id : String
  state : LinkStatus
  sync_cursor : Option String
  institution_id : Option String
deriving DecidableEq

/-- to_status_enum from src/store/link.rs. -/
def to_status_enum : LinkStatus → String
  | LinkStatus.Degraded _ => "REQUIRES_VERIFICATION"
  | LinkStatus.Active => "ACTIVE"

/-- from_status_enum from src/store/link.rs; an unknown column value is the
anyhow error case, rendered as none. -/
def from_status_enum (status : String) : Option LinkStatus :=
  if status == "ACTIVE" then some LinkStatus.Active
  else if status == "REQUIRES_VERIFICATION" then
    some (LinkStatus.Degraded "requires verification")
  else none

/-- Link::from_row from src/store/link.rs; the unwrap on from_status_enum
panics on an unknown state string, rendered as none. -/
def link_from_row (row : LinkRow) : Option Link :=
  (from_status_enum row.linkState).map fun st =>
    ⟨row.aliasName, row.accessToken, row.id, st, row.syncCursor, row.institution⟩

/-- Row written by the link store save, which binds id, alias, access_token,
link_state and institution but omits the sync_cursor column (left NULL). -/
def linkRowOf (l : Link) : LinkRow :=
  ⟨l.item_id, l.aliasName, l.access_token, to_status_enum l.state, none, l.institution_id⟩

/-- Store::save for links, from src/store/link.rs; a primary-key conflict on
the id column propagates as a generic database error. -/
def link_save (db : DB) (l : Link) : Except StoreError DB :=
  if db.links.any (fun row => row.id == l.item_id) then
    Except.error StoreError.Database
  else
    Except.ok { db with links := db.links ++ [linkRowOf l] }

/-- Store::update for links, from src/store/link.rs: rewrite the alias,
access_token, link_state, sync_cursor and institution columns of the row whose
id equals the link's item_id. -/
def link_update (db : DB) (l : Link) : DB :=
  { db with
    links := db.links.map fun row =>
      if row.id == l.item_id then
        { row with
          aliasName := l.aliasName
          accessToken := l.access_token
          linkState := to_status_enum l.state
          syncCursor := l.sync_cursor
          institution := l.institution_id }
      else row }

/-- Store::link for links, from src/store/link.rs: fetch_one by id (a missing
row is the sqlx RowNotFound database error) decoded through Link::from_row
(whose unwrap on an unknown state is a panic, rendered as Unknown). -/
def link_get (db : DB) (id : String) : Except StoreError Link :=
  match db.links.find? (fun row => row.id == id) with
  | none => Except.error StoreError.Database
  | some row =>
    match link_from_row row with
    | none => Except.error StoreError.Unknown
    | some l => Except.ok l

/-- Sync driver error for a Modified event without a base transaction. -/
inductive SyncError
  | missingBase
deriving DecidableEq

/-- Modelled from the spec: the synchronization driver's Modified-event
handler, which is absent from src (only the store primitives tx_by_plaid_id
and update_source are present there).  Spec 4.2: look up the existing ledger
id via the upstream mapping; if absent, the event is an error and the item's
sync pass fails; on success, overwrite only the stored source payload, not
the mapping. -/
def apply_modified (db : DB) (item_id : String) (e : TransactionEntry) :
    Except SyncError DB :=
  match tx_by_plaid_id db item_id e.source.transaction_id with
  | none => Except.error SyncError.missingBase
  | some ledger_id => Except.ok (update_source db ledger_id e.source)

/-- Rows produced by the posting insertion loop starting from a generator
value. -/
def postingRowsOf (fresh : Nat) (txn_id : Nat) : List Posting → List PostRow
  | [] => []
  | p :: ps => postingRow fresh txn_id p :: postingRowsOf (fresh + 1) txn_id ps

/-- The empty database. -/
def emptyDB : DB := ⟨[], [], [], [], 0⟩

/-- Concrete raw upstream transaction mirroring the fixture of the store
tests. -/
def sampleTxn : PlaidTransaction :=
  ⟨"acct-1", 3325, some "USD", "2022-05-01", false, "1234-test", none,
    "Test Transaction", none⟩

/-- Concrete canonical transaction with no postings, the shape the adapter
produces. -/
def sampleCanonical : Transaction :=
  ⟨7, Status.Resolved, ⟨2022, 5, 1⟩, none, [], "Test Transaction", [], [], []⟩

def sampleEntry : TransactionEntry := ⟨sampleCanonical, sampleTxn⟩

/-- Pending upstream transaction with upstream id p1. -/
def pendingTxn : PlaidTransaction :=
  ⟨"acct-1", 500, some "USD", "2022-05-01", true, "p1", none, "Coffee", none⟩

def pendingEntry : TransactionEntry :=
  ⟨⟨1, Status.Pending, ⟨2022, 5, 1⟩, none, [], "Coffee", [], [], []⟩, pendingTxn⟩

/-- Posted upstream transaction whose pending_transaction_id points at p1 but
whose own upstream id is t2. -/
def postedTxn : PlaidTransaction :=
  ⟨"acct-1", 500, some "USD", "2022-05-02", false, "t2", some "p1", "Coffee", none⟩

def postedEntry : TransactionEntry :=
  ⟨⟨2, Status.Resolved, ⟨2022, 5, 2⟩, none, [], "Coffee", [], [], []⟩, postedTxn⟩

theorem find?_append_of_none {α : Type} (p : α → Bool) (xs ys : List α)
    (h : xs.find? p = none) : (xs ++ ys).find? p = ys.find? p := by
  induction xs with
  | nil => rfl
  | cons x xs ih =>
    rw [List.find?_cons] at h
    rw [List.cons_append, List.find?_cons]
    cases hpx : p x
    · rw [hpx] at h
      exact ih h
    · rw [hpx] at h
      exact absurd h (by simp)

theorem insert_postings_transactions (ps : List Posting) (db : DB) (tid : Nat) :
    (insert_postings db tid ps).transactions = db.transactions := by
  induction ps generalizing db with
  | nil => rfl
  | cons p ps ih => simpa [insert_postings, insert_posting] using ih (insert_posting db tid p)

theorem insert_postings_mapping (ps : List Posting) (db : DB) (tid : Nat) :
    (insert_postings db tid ps).mapping = db.mapping := by
  induction ps generalizing db with
  | nil => rfl
  | cons p ps ih => simpa [insert_postings, insert_posting] using ih (insert_posting db tid p)

theorem insert_postings_links (ps : List Posting) (db : DB) (tid : Nat) :
    (insert_postings db tid ps).links = db.links := by
  induction ps generalizing db with
  | nil => rfl
  | cons p ps ih => simpa [insert_postings, insert_posting] using ih (insert_posting db tid p)

theorem insert_postings_postings (ps : List Posting) (db : DB) (tid : Nat) :
    (insert_postings db tid ps).postings =
      db.postings ++ postingRowsOf db.ulidCounter tid ps := by
  induction ps generalizing db with
  | nil => simp [insert_postings, postingRowsOf]
  | cons p ps ih =>
    have hstep := ih (insert_posting db tid p)
    simp [insert_postings, insert_posting, postingRowsOf] at hstep ⊢
    rw [hstep]

theorem select_none_find_none (db : DB) (it up : String)
    (h : ¬ (select_transaction_connection db it up).isSome = true) :
    db.mapping.find? (fun r => r.itemId == it && r.plaidTxnId == up) = none := by
  rcases hf : db.mapping.find? (fun r => r.itemId == it && r.plaidTxnId == up) with _ | r
  · exact hf
  · exact absurd (by simp [select_transaction_connection, hf]) h

/-- Characterization of a successful save_tx body: the dedup pre-check found
no mapping row, the transaction id was fresh, and exactly the transaction
row, its posting rows and the mapping row were appended. -/
theorem save_tx_body_ok_spec (db : DB) (it up : String) (e : TransactionEntry) (db2 : DB)
    (h : save_tx_body db it up e = Except.ok db2) :
    select_transaction_connection db it up = none ∧
    db.transactions.any (fun r => r.id == e.canonical.id) = false ∧
    db2.transactions = db.transactions ++ [txRowOf e.canonical e.source] ∧
    db2.postings = db.postings ++
      postingRowsOf db.ulidCounter e.canonical.id e.canonical.postings ∧
    db2.mapping = db.mapping ++ [⟨it, e.canonical.id, up⟩] ∧
    db2.links = db.links := by
  unfold save_tx_body at h
  by_cases hsel : (select_transaction_connection db it up).isSome
  · rw [if_pos hsel] at h
    exact absurd h (by simp)
  · rw [if_neg hsel] at h
    have hfind := select_none_find_none db it up hsel
    by_cases hins : db.transactions.any (fun r => r.id == e.canonical.id) = true
    · have hfail : insert_transaction db e.canonical e.source =
          Except.error StoreError.AlreadyExists := by
        rw [insert_transaction, if_pos hins]
      simp only [hfail] at h
      exact absurd h (by simp)
    · have hok : insert_transaction db e.canonical e.source = Except.ok
          { db with transactions := db.transactions ++ [txRowOf e.canonical e.source] } := by
        rw [insert_transaction, if_neg hins]
      simp only [hok] at h
      have hanymap :
          ((insert_postings
              { db with transactions := db.transactions ++ [txRowOf e.canonical e.source] }
              e.canonical.id e.canonical.postings).mapping.any
            (fun r => r.itemId == it && r.plaidTxnId == up)) = false := by
        rw [insert_postings_mapping]
        exact List.any_eq_false.mpr (by simpa using List.find?_eq_none.mp hfind)
      rw [transaction_plaid_connection, if_neg (by simp [hanymap])] at h
      have hdb2 := (Except.ok.injEq _ _).mp h
      subst hdb2
      refine ⟨?_, by simpa using hins, ?_, ?_, ?_, ?_⟩
      · simp [select_transaction_connection, hfind]
      · simpa using insert_postings_transactions e.canonical.postings _ e.canonical.id
      · simpa using insert_postings_postings e.canonical.postings _ e.canonical.id
      · simpa using insert_postings_mapping e.canonical.postings _ e.canonical.id
      · simpa using insert_postings_links e.canonical.postings _ e.canonical.id

/-- The wrapper returns ok exactly when the body does, with the body's final
state. -/
theorem save_tx_ok_spec (db : DB) (it up : String) (e : TransactionEntry) (db2 : DB)
    (h : save_tx db it up e = (Except.ok (), db2)) :
    select_transaction_connection db it up = none ∧
    db.transactions.any (fun r => r.id == e.canonical.id) = false ∧
    db2.transactions = db.transactions ++ [txRowOf e.canonical e.source] ∧
    db2.postings = db.postings ++
      postingRowsOf db.ulidCounter e.canonical.id e.canonical.postings ∧
    db2.mapping = db.mapping ++ [⟨it, e.canonical.id, up⟩] ∧
    db2.links = db.links := by
  unfold save_tx at h
  rcases hbody : save_tx_body db it up e with er | dbf
  · rw [hbody] at h
    exact absurd h (by simp)
  · rw [hbody] at h
    have hdb : dbf = db2 := by simpa using (Prod.mk.injEq _ _ _ _).mp h |>.2
    subst hdb
    exact save_tx_body_ok_spec db it up e dbf hbody

/-- C1: after a successful saveTransaction for an (itemId, upstreamId) pair,
a second saveTransaction call with the same pair fails with the distinguished
AlreadyExists condition (not a generic database error), leaves the store
unchanged, and exactly one transaction row and one mapping row exist for the
pair. -/
theorem save_tx_dedup_second_attempt (db : DB) (it up : String)
    (e e2 : TransactionEntry) (db2 : DB)
    (h : save_tx db it up e = (Except.ok (), db2)) :
    save_tx db2 it up e2 = (Except.error StoreError.AlreadyExists, db2) ∧
    (db2.mapping.filter fun r => r.itemId == it && r.plaidTxnId == up).length = 1 ∧
    (db2.transactions.filter fun r => r.id == e.canonical.id).length = 1 := by
  obtain ⟨hsel, hfresh, htx, _, hmap, _⟩ := save_tx_ok_spec db it up e db2 h
  have hfind : db.mapping.find? (fun r => r.itemId == it && r.plaidTxnId == up) = none := by
    unfold select_transaction_connection at hsel
    exact Option.map_eq_none'.mp hsel
  have hrow : (fun (r : MapRow) => r.itemId == it && r.plaidTxnId == up)
      (⟨it, e.canonical.id, up⟩ : MapRow) = true := by simp
  have hfind2 : db2.mapping.find? (fun r => r.itemId == it && r.plaidTxnId == up) =
      some ⟨it, e.canonical.id, up⟩ := by
    rw [hmap, find?_append_of_none _ _ _ hfind]
    simp [List.find?_cons]
  have hsel2 : (select_transaction_connection db2 it up).isSome = true := by
    simp [select_transaction_connection, hfind2]
  constructor
  · have hbody : save_tx_body db2 it up e2 = Except.error StoreError.AlreadyExists := by
      rw [save_tx_body, if_pos hsel2]
    rw [save_tx, hbody]
  constructor
  · rw [hmap, List.filter_append]
    have hnil : db.mapping.filter (fun r => r.itemId == it && r.plaidTxnId == up) = [] :=
      List.filter_eq_nil_iff.mpr (List.find?_eq_none.mp hfind)
    rw [hnil]
    simp [List.filter, hrow]
  · rw [htx, List.filter_append]
    have hnil : db.transactions.filter (fun r => r.id == e.canonical.id) = [] := by
      apply List.filter_eq_nil_iff.mpr
      intro a ha
      have hx := List.any_eq_false.mp hfresh a ha
      simpa using hx
    rw [hnil]
    simp [List.filter, txRowOf]

/-- Witness for C1 at a concrete store: saving the sample entry into the empty
database succeeds, and the theorem yields the duplicate rejection and the
uniqueness counts. -/
theorem save_tx_dedup_second_attempt_witness :
    save_tx (save_tx emptyDB "item-1" "up-1" sampleEntry).2 "item-1" "up-1" sampleEntry =
      (Except.error StoreError.AlreadyExists, (save_tx emptyDB "item-1" "up-1" sampleEntry).2) ∧
    (((save_tx emptyDB "item-1" "up-1" sampleEntry).2.mapping.filter
      fun r => r.itemId == "item-1" && r.plaidTxnId == "up-1").length = 1) :=
  have happ := save_tx_dedup_second_attempt emptyDB "item-1" "up-1" sampleEntry sampleEntry
    (save_tx emptyDB "item-1" "up-1" sampleEntry).2 (by rfl)
  ⟨happ.1, happ.2.1⟩

/-- C5: saveTransaction writes the transaction row, all posting rows and the
mapping row inside one atomic database transaction: on any error (including
AlreadyExists) the persisted state is unchanged, and on success exactly those
rows are appended, so no partial subset of them is ever observable. -/
theorem save_tx_atomic (db : DB) (it up : String) (e : TransactionEntry)
    (r : Except StoreError Unit) (db2 : DB)
    (h : save_tx db it up e = (r, db2)) :
    (∀ err, r = Except.error err → db2 = db) ∧
    (r = Except.ok () →
      db2.transactions = db.transactions ++ [txRowOf e.canonical e.source] ∧
      db2.postings = db.postings ++
        postingRowsOf db.ulidCounter e.canonical.id e.canonical.postings ∧
      db2.mapping = db.mapping ++ [⟨it, e.canonical.id, up⟩] ∧
      db2.links = db.links) := by
  constructor
  · intro err herr
    subst herr
    unfold save_tx at h
    rcases hbody : save_tx_body db it up e with er2 | dbf <;> rw [hbody] at h
    · simpa using ((Prod.mk.injEq _ _ _ _).mp h).2.symm
    · exact absurd ((Prod.mk.injEq _ _ _ _).mp h).1 (by simp)
  · intro hok
    subst hok
    obtain ⟨_, _, h1, h2, h3, h4⟩ := save_tx_ok_spec db it up e db2 h
    exact ⟨h1, h2, h3, h4⟩

/-- Witness for C5: the first save into the empty store appends exactly the
sample rows, and the failing duplicate save leaves the state untouched. -/
theorem save_tx_atomic_witness :
    ((save_tx emptyDB "item-1" "up-1" sampleEntry).2.transactions =
      emptyDB.transactions ++ [txRowOf sampleCanonical sampleTxn]) ∧
    ((save_tx (save_tx emptyDB "item-1" "up-1" sampleEntry).2 "item-1" "up-1"
        sampleEntry).2 = (save_tx emptyDB "item-1" "up-1" sampleEntry).2) :=
  have h1 := save_tx_atomic emptyDB "item-1" "up-1" sampleEntry (Except.ok ())
    (save_tx emptyDB "item-1" "up-1" sampleEntry).2 (by rfl)
  have h2 := save_tx_atomic (save_tx emptyDB "item-1" "up-1" sampleEntry).2 "item-1" "up-1"
    sampleEntry (Except.error StoreError.AlreadyExists)
    (save_tx (save_tx emptyDB "item-1" "up-1" sampleEntry).2 "item-1" "up-1" sampleEntry).2
    (by rfl)
  ⟨(h1.2 rfl).1, h2.1 StoreError.AlreadyExists rfl⟩

theorem postingRowsOf_length (ps : List Posting) (fresh tid : Nat) :
    (postingRowsOf fresh tid ps).length = ps.length := by
  induction ps generalizing fresh with
  | nil => rfl
  | cons p ps ih => simp [postingRowsOf, ih]

theorem postingRowsOf_amounts (ps : List Posting) (fresh tid : Nat) :
    (postingRowsOf fresh tid ps).map (fun r => r.amount) =
      ps.map (fun p => p.units.amount) := by
  induction ps generalizing fresh with
  | nil => rfl
  | cons p ps ih => simp [postingRowsOf, postingRow, ih]

/-- C2 counterexample: an entry with no postings at all (exactly the shape the
adapter's canonical constructor produces) is persisted successfully, so a
persisted transaction does not necessarily carry at least two balancing
postings. -/
theorem save_tx_zero_postings_counterexample :
    (save_tx emptyDB "item-1" "up-1" sampleEntry).1 = Except.ok () ∧
    ((save_tx emptyDB "item-1" "up-1" sampleEntry).2.postings.filter
      fun p => p.txnId == sampleCanonical.id).length = 0 := by
  exact ⟨rfl, rfl⟩

/-- C2 amended: saveTransaction persists exactly the postings supplied by the
entry, preserving their amounts; it enforces no minimum posting count and no
zero-sum balance, so the double-entry invariant holds only when the input
already satisfies it. -/
theorem save_tx_postings_passthrough (db : DB) (it up : String)
    (e : TransactionEntry) (db2 : DB)
    (h : save_tx db it up e = (Except.ok (), db2)) :
    db2.postings = db.postings ++
      postingRowsOf db.ulidCounter e.canonical.id e.canonical.postings ∧
    (postingRowsOf db.ulidCounter e.canonical.id e.canonical.postings).length =
      e.canonical.postings.length ∧
    (postingRowsOf db.ulidCounter e.canonical.id e.canonical.postings).map
      (fun r => r.amount) = e.canonical.postings.map (fun p => p.units.amount) := by
  obtain ⟨_, _, _, hpost, _, _⟩ := save_tx_ok_spec db it up e db2 h
  exact ⟨hpost, postingRowsOf_length _ _ _, postingRowsOf_amounts _ _ _⟩

/-- Witness for the amended C2 at the sample entry. -/
theorem save_tx_postings_passthrough_witness :
    (save_tx emptyDB "item-1" "up-1" sampleEntry).2.postings = emptyDB.postings ++
      postingRowsOf emptyDB.ulidCounter sampleCanonical.id sampleCanonical.postings ∧
    (postingRowsOf emptyDB.ulidCounter sampleCanonical.id sampleCanonical.postings).length =
      sampleCanonical.postings.length :=
  have happ := save_tx_postings_passthrough emptyDB "item-1" "up-1" sampleEntry
    (save_tx emptyDB "item-1" "up-1" sampleEntry).2 (by rfl)
  ⟨happ.1, happ.2.1⟩

/-- C3 counterexample: replaying Added(pending upstream id p1) and then
Added(posted upstream id t2 with pendingTransactionId p1) yields two persisted
ledger transactions for the one economic event: both saves succeed because no
code path consults the pending linkage, refuting the claimed single-row
outcome. -/
theorem pending_posted_duplicate_counterexample :
    (save_tx emptyDB "item-1" "p1" pendingEntry).1 = Except.ok () ∧
    (save_tx (save_tx emptyDB "item-1" "p1" pendingEntry).2 "item-1" "t2"
      postedEntry).1 = Except.ok () ∧
    postedTxn.pending_transaction_id = some "p1" ∧
    (save_tx (save_tx emptyDB "item-1" "p1" pendingEntry).2 "item-1" "t2"
      postedEntry).2.transactions.length = 2 := by
  exact ⟨rfl, rfl, rfl, rfl⟩

/-- C3 amended: the store's dedup lookup is keyed solely on the
(itemId, upstreamId) pair passed to saveTransaction; the pendingTransactionId
carried by the posted payload is never consulted, so a posted transaction
arriving under a fresh upstream id is inserted as a second, distinct ledger
transaction alongside the pending one. -/
theorem save_tx_ignores_pending_linkage (db : DB) (it up1 up2 : String)
    (e1 e2 : TransactionEntry) (db1 db2 : DB)
    (_hp : e2.source.pending_transaction_id = some up1)
    (h1 : save_tx db it up1 e1 = (Except.ok (), db1))
    (h2 : save_tx db1 it up2 e2 = (Except.ok (), db2)) :
    e1.canonical.id ≠ e2.canonical.id ∧
    (db2.transactions.filter fun r =>
      r.id == e1.canonical.id || r.id == e2.canonical.id).length = 2 := by
  obtain ⟨_, hfresh1, htx1, _, _, _⟩ := save_tx_ok_spec db it up1 e1 db1 h1
  obtain ⟨_, hfresh2, htx2, _, _, _⟩ := save_tx_ok_spec db1 it up2 e2 db2 h2
  rw [htx1] at hfresh2
  have hids : (txRowOf e1.canonical e1.source).id ≠ e2.canonical.id := by
    have := List.any_eq_false.mp hfresh2 (txRowOf e1.canonical e1.source) (by simp)
    simpa using this
  have hne : e1.canonical.id ≠ e2.canonical.id := by simpa [txRowOf] using hids
  refine ⟨hne, ?_⟩
  rw [htx2, htx1, List.append_assoc, List.filter_append]
  have hnil : db.transactions.filter (fun r =>
      r.id == e1.canonical.id || r.id == e2.canonical.id) = [] := by
    apply List.filter_eq_nil_iff.mpr
    intro a ha
    have ha1 := List.any_eq_false.mp hfresh1 a ha
    have ha2 := List.any_eq_false.mp hfresh2 a (by simp [ha])
    simp at ha1 ha2
    simp [ha1, ha2]
  rw [hnil]
  simp [List.filter, txRowOf, hne]

/-- Witness for the amended C3 at the concrete pending/posted pair. -/
theorem save_tx_ignores_pending_linkage_witness :
    pendingEntry.canonical.id ≠ postedEntry.canonical.id ∧
    ((save_tx (save_tx emptyDB "item-1" "p1" pendingEntry).2 "item-1" "t2"
        postedEntry).2.transactions.filter fun r =>
      r.id == pendingEntry.canonical.id || r.id == postedEntry.canonical.id).length = 2 :=
  save_tx_ignores_pending_linkage emptyDB "item-1" "p1" "t2" pendingEntry postedEntry
    (save_tx emptyDB "item-1" "p1" pendingEntry).2
    (save_tx (save_tx emptyDB "item-1" "p1" pendingEntry).2 "item-1" "t2" postedEntry).2
    (by rfl) (by rfl) (by rfl)

/-- C4: a Modified event whose (itemId, upstreamId) pair has no entry in the
upstream mapping fails the sync pass and creates no transaction: the driver
handler (modelled from the spec, since the driver is absent from src) errors
on the missing base, and update_source never changes the number of
transaction rows. -/
theorem apply_modified_missing_base (db : DB) (it : String) (e : TransactionEntry)
    (h : tx_by_plaid_id db it e.source.transaction_id = none) :
    apply_modified db it e = Except.error SyncError.missingBase ∧
    ∀ id p, (update_source db id p).transactions.length = db.transactions.length := by
  constructor
  · unfold apply_modified
    rw [h]
  · intro id p
    simp [update_source]

/-- Witness for C4 at the empty store. -/
theorem apply_modified_missing_base_witness :
    apply_modified emptyDB "item-1" sampleEntry = Except.error SyncError.missingBase ∧
    (update_source emptyDB 3 sampleTxn).transactions.length =
      emptyDB.transactions.length :=
  have happ := apply_modified_missing_base emptyDB "item-1" sampleEntry (by rfl)
  ⟨happ.1, happ.2 3 sampleTxn⟩

/-- Adapter state holding a previously stored cursor, as built when a link
already has a sync cursor. -/
def staleSource : Source := ⟨"tok", some "old-cursor", [], []⟩

/-- C6 counterexample: an empty page-item sequence ends without the Done
sentinel yet the pull succeeds silently, and next_cursor on a source
initialized with a stored cursor returns that stale value before any sentinel
was observed instead of failing. -/
theorem transactions_sentinel_counterexample :
    Source.transactions staleSource 0 [] = Except.ok (staleSource, 0, []) ∧
    Source.next_cursor staleSource = Except.ok "old-cursor" := by
  exact ⟨rfl, rfl⟩

/-- C6 amended: a nonempty page-item sequence whose last element is not the
Done sentinel fails loudly (assertion panic); an empty sequence is accepted
silently with the adapter state unchanged; and next_cursor is an error only
when no cursor was ever stored, while a source initialized with a previously
stored cursor returns that value even before a sentinel is observed. -/
theorem transactions_sentinel_amended (s : Source) (fresh : Nat)
    (items : List TransactionStream) (x : TransactionStream) :
    (items.getLast? = some x → isDone x = false →
      Source.transactions s fresh items = Except.error PanicKind.assertSentinel) ∧
    Source.transactions s fresh [] = Except.ok (s, fresh, []) ∧
    (s.cursor = none → Source.next_cursor s = Except.error PanicKind.expectCursor) ∧
    (∀ c, s.cursor = some c → Source.next_cursor s = Except.ok c) := by
  refine ⟨?_, rfl, ?_, ?_⟩
  · intro hlast hnd
    unfold Source.transactions
    rw [hlast]
    show (if isDone x = true then process_stream s fresh items
      else Except.error PanicKind.assertSentinel) = Except.error PanicKind.assertSentinel
    rw [if_neg (by simp [hnd])]
  · intro hc
    unfold Source.next_cursor
    rw [hc]
  · intro c hc
    unfold Source.next_cursor
    rw [hc]

/-- Witness for the amended C6: a sequence ending in an Added item panics, a
cursorless source fails next_cursor, and a stored cursor is returned as is. -/
theorem transactions_sentinel_amended_witness :
    Source.transactions ⟨"tok", none, [], []⟩ 0 [TransactionStream.Added sampleTxn] =
      Except.error PanicKind.assertSentinel ∧
    Source.next_cursor ⟨"tok", none, [], []⟩ = Except.error PanicKind.expectCursor ∧
    Source.next_cursor staleSource = Except.ok "old-cursor" :=
  have h1 := transactions_sentinel_amended ⟨"tok", none, [], []⟩ 0
    [TransactionStream.Added sampleTxn] (TransactionStream.Added sampleTxn)
  have h2 := transactions_sentinel_amended staleSource 0 [] (TransactionStream.Done "x")
  ⟨h1.1 rfl rfl, h1.2.2.1 rfl, h2.2.2.2 "old-cursor" rfl⟩

/-- Canonical transaction produced from the sample raw payload under fresh
ULID 0. -/
def canonical0 : Transaction :=
  ⟨0, Status.Resolved, ⟨2022, 5, 1⟩, none, [], "Test Transaction", [], [], []⟩

/-- Canonical transaction produced from the sample raw payload under fresh
ULID 1. -/
def canonical1 : Transaction :=
  ⟨1, Status.Resolved, ⟨2022, 5, 1⟩, none, [], "Test Transaction", [], [], []⟩

/-- C7 counterexample: two invocations of to_canonical_txn on the same raw
transaction draw two fresh ULIDs and therefore produce canonical transactions
that differ in the generated ledger id, refuting equality in every field. -/
theorem to_canonical_txn_fresh_id_counterexample :
    to_canonical_txn 0 sampleTxn = some canonical0 ∧
    to_canonical_txn 1 sampleTxn = some canonical1 ∧
    canonical0 ≠ canonical1 := by
  exact ⟨rfl, rfl, by decide⟩

/-- C7 amended: to_canonical_txn is deterministic in every field except the
ledger id, which equals the fresh ULID drawn for that invocation: two runs on
the same raw transaction agree on date, narration, status, payee, postings,
tags, links and metadata. -/
theorem to_canonical_txn_deterministic_except_id (n1 n2 : Nat)
    (t : PlaidTransaction) (c1 c2 : Transaction)
    (h1 : to_canonical_txn n1 t = some c1)
    (h2 : to_canonical_txn n2 t = some c2) :
    c1.id = n1 ∧ c2.id = n2 ∧ c1.date = c2.date ∧ c1.narration = c2.narration ∧
    c1.status = c2.status ∧ c1.payee = c2.payee ∧ c1.postings = c2.postings ∧
    c1.tags = c2.tags ∧ c1.links = c2.links ∧ c1.meta = c2.meta := by
  unfold to_canonical_txn at h1 h2
  rcases hd : parseDate t.date with _ | d
  · rw [hd] at h1
    exact absurd h1 (by simp)
  · rw [hd] at h1 h2
    simp only [Option.map_some'] at h1 h2
    have hc1 := (Option.some.injEq _ _).mp h1
    have hc2 := (Option.some.injEq _ _).mp h2
    subst hc1
    subst hc2
    exact ⟨rfl, rfl, rfl, rfl, rfl, rfl, rfl, rfl, rfl, rfl⟩

/-- Witness for the amended C7 at the sample payload and fresh ids 0 and 1. -/
theorem to_canonical_txn_deterministic_except_id_witness :
    canonical0.id = 0 ∧ canonical1.id = 1 ∧ canonical0.date = canonical1.date ∧
    canonical0.narration = canonical1.narration :=
  have happ := to_canonical_txn_deterministic_except_id 0 1 sampleTxn canonical0 canonical1
    (by rfl) (by rfl)
  ⟨happ.1, happ.2.1, happ.2.2.1, happ.2.2.2.1⟩

/-- C8: with zero configured rule files the interpreter compiles an empty
transform list and apply is the identity transform: every field of the
transaction projection, including the account classification, amount, date,
payee name and pending flag, is returned unchanged. -/
theorem interpreter_apply_empty_identity (t : PlaidTransaction) :
    Interpreter.apply ⟨[]⟩ t = t ∧
    (Interpreter.apply ⟨[]⟩ t).account_id = t.account_id ∧
    (Interpreter.apply ⟨[]⟩ t).amount = t.amount ∧
    (Interpreter.apply ⟨[]⟩ t).date = t.date ∧
    (Interpreter.apply ⟨[]⟩ t).name = t.name ∧
    (Interpreter.apply ⟨[]⟩ t).merchant_name = t.merchant_name ∧
    (Interpreter.apply ⟨[]⟩ t).pending = t.pending := by
  exact ⟨rfl, rfl, rfl, rfl, rfl, rfl, rfl⟩

/-- C9: updateSource rewrites only the source column of the transaction row
whose id matches: postings, mapping, links and the generator are untouched,
and every transaction row keeps its id, date, payee, narration and status,
with rows of a different id fully unchanged. -/
theorem update_source_frame (db : DB) (id : Nat) (p : PlaidTransaction) :
    (update_source db id p).postings = db.postings ∧
    (update_source db id p).mapping = db.mapping ∧
    (update_source db id p).links = db.links ∧
    (update_source db id p).ulidCounter = db.ulidCounter ∧
    List.Forall₂ (fun r r2 =>
      r2.id = r.id ∧ r2.date = r.date ∧ r2.payee = r.payee ∧
      r2.narration = r.narration ∧ r2.status = r.status ∧
      (r.id ≠ id → r2 = r))
      db.transactions (update_source db id p).transactions := by
  refine ⟨rfl, rfl, rfl, rfl, ?_⟩
  show List.Forall₂ _ db.transactions (db.transactions.map fun r =>
    if r.id == id then { r with source := p } else r)
  induction db.transactions with
  | nil => constructor
  | cons r rs ih =>
    rw [List.map_cons]
    refine List.Forall₂.cons ?_ ih
    by_cases hid : r.id == id
    · rw [if_pos hid]
      refine ⟨rfl, rfl, rfl, rfl, rfl, ?_⟩
      intro hne
      exact absurd (by simpa using hid) hne
    · rw [if_neg hid]
      exact ⟨rfl, rfl, rfl, rfl, rfl, fun _ => rfl⟩

/-- Finding the updated link row: the update rewrite preserves the row id, so
the find after the update is the find before it with the rewrite applied. -/
theorem link_update_find (db0 : DB) (l : Link) :
    (link_update db0 l).links.find? (fun r => r.id == l.item_id) =
      (db0.links.find? (fun r => r.id == l.item_id)).map (fun r =>
        { r with
          aliasName := l.aliasName
          accessToken := l.access_token
          linkState := to_status_enum l.state
          syncCursor := l.sync_cursor
          institution := l.institution_id }) := by
  show (db0.links.map _).find? _ = _
  induction db0.links with
  | nil => rfl
  | cons r rs ih =>
    rw [List.map_cons, List.find?_cons, List.find?_cons]
    cases hid : r.id == l.item_id
    · rw [if_neg (by simp [hid])]
      simp only [hid, ih]
    · rw [if_pos (by simp [hid])]
      simp only [hid, Option.map_some']

theorem link_get_of_find (db : DB) (id : String) (row : LinkRow)
    (hf : db.links.find? (fun r => r.id == id) = some row) :
    link_get db id = (match link_from_row row with
      | none => Except.error StoreError.Unknown
      | some lk => Except.ok lk) := by
  unfold link_get
  rw [hf]

theorem from_to_status (st : LinkStatus) :
    from_status_enum (to_status_enum st) =
      some (match st with
        | LinkStatus.Active => LinkStatus.Active
        | LinkStatus.Degraded _ => LinkStatus.Degraded "requires verification") := by
  cases st <;> rfl

/-- C10: a link persisted through the store and re-read by id preserves the
status variant: Active round-trips to Active exactly, and Degraded(reason)
round-trips to Degraded for every reason string, but the stored reason always
reads back as the fixed string "requires verification". -/
theorem link_status_roundtrip (db db2 : DB) (l : Link)
    (hs : link_save db l = Except.ok db2) :
    (∃ l2, link_get db2 l.item_id = Except.ok l2 ∧
      l2.state = (match l.state with
        | LinkStatus.Active => LinkStatus.Active
        | LinkStatus.Degraded _ => LinkStatus.Degraded "requires verification")) ∧
    (∀ db0, (db0.links.any fun row => row.id == l.item_id) = true →
      ∃ l2, link_get (link_update db0 l) l.item_id = Except.ok l2 ∧
        l2.state = (match l.state with
          | LinkStatus.Active => LinkStatus.Active
          | LinkStatus.Degraded _ => LinkStatus.Degraded "requires verification")) := by
  constructor
  · unfold link_save at hs
    by_cases hany : (db.links.any fun row => row.id == l.item_id) = true
    · rw [if_pos hany] at hs
      exact absurd hs (by simp)
    · rw [if_neg hany] at hs
      have hdb2 := (Except.ok.injEq _ _).mp hs
      subst hdb2
      have hanyf : (db.links.any fun row => row.id == l.item_id) = false := by
        revert hany
        cases db.links.any fun row => row.id == l.item_id <;> simp
      have hnone : db.links.find? (fun row => row.id == l.item_id) = none := by
        apply List.find?_eq_none.mpr
        intro x hx
        have hx2 := List.any_eq_false.mp hanyf x hx
        simpa using hx2
      have hfind : (db.links ++ [linkRowOf l]).find? (fun row => row.id == l.item_id) =
          some (linkRowOf l) := by
        rw [find?_append_of_none _ _ _ hnone]
        simp [List.find?_cons, linkRowOf]
      have hget := link_get_of_find { db with links := db.links ++ [linkRowOf l] }
        l.item_id (linkRowOf l) hfind
      refine ⟨⟨l.aliasName, l.access_token, l.item_id,
        (match l.state with
          | LinkStatus.Active => LinkStatus.Active
          | LinkStatus.Degraded _ => LinkStatus.Degraded "requires verification"),
        none, l.institution_id⟩, ?_, rfl⟩
      rw [hget]
      simp only [link_from_row, linkRowOf, from_to_status, Option.map_some']
  · intro db0 hany
    obtain ⟨row, hrowmem, hrowid⟩ := List.any_eq_true.mp hany
    have hfsome : (db0.links.find? fun r => r.id == l.item_id).isSome :=
      List.find?_isSome.mpr ⟨row, hrowmem, hrowid⟩
    obtain ⟨row0, hrow0⟩ := Option.isSome_iff_exists.mp hfsome
    have hupd : (link_update db0 l).links.find? (fun r => r.id == l.item_id) =
        some { row0 with
          aliasName := l.aliasName
          accessToken := l.access_token
          linkState := to_status_enum l.state
          syncCursor := l.sync_cursor
          institution := l.institution_id } := by
      rw [link_update_find, hrow0]
      simp only [Option.map_some']
    have hget := link_get_of_find (link_update db0 l) l.item_id _ hupd
    refine ⟨⟨l.aliasName, l.access_token, row0.id,
      (match l.state with
        | LinkStatus.Active => LinkStatus.Active
        | LinkStatus.Degraded _ => LinkStatus.Degraded "requires verification"),
      l.sync_cursor, l.institution_id⟩, ?_, rfl⟩
    rw [hget]
    simp only [link_from_row, from_to_status, Option.map_some']

/-- Concrete degraded link for the C10 witness. -/
def sampleLink : Link :=
  ⟨"alias1", "tok1", "item-9", LinkStatus.Degraded "login required", none, none⟩

/-- Witness for C10: saving a link degraded with an arbitrary reason and
re-reading it yields Degraded with the fixed reason string. -/
theorem link_status_roundtrip_witness :
    ∃ l2, link_get (DB.mk [] [] [] [linkRowOf sampleLink] 0) "item-9" = Except.ok l2 ∧
      l2.state = LinkStatus.Degraded "requires verification" := by
  have happ := link_status_roundtrip emptyDB (DB.mk [] [] [] [linkRowOf sampleLink] 0)
    sampleLink (by rfl)
  simpa using happ.1

end Clerk
